import Mathlib

/-!
Shallow embedding of the excel-reader upload service: the Express server
in src/server/index.js and the browser-side validation / preview logic in
src/src/components/FileUploader.tsx.

Modelling conventions:
* JavaScript strings are Lean `String`s over their character lists;
  `toLowerCase`/`toUpperCase` act on the ASCII letters, which covers every
  character the repository compares against its fixed extension and MIME
  lists.
* The filesystem visible to the handler is the list of paths that
  currently exist (`fs.existsSync` is membership, `fs.unlinkSync` removes
  the path).
* JavaScript objects used as string-keyed maps are insertion-ordered
  association lists; `Object.keys` follows the ECMAScript own-property
  order for string keys: array-index keys (canonical decimal numerals
  below 2^32 - 1) in ascending numeric order first, then the remaining
  keys in insertion order.
* The external parsing libraries (csv-parser, xlsx) are abstracted as
  function parameters producing either a parsed table or an error
  message; everything the repository itself does with their output is
  embedded from the source.
-/

namespace ExcelReader

/-- ASCII lower-casing of a single character, as JS `toLowerCase` acts on
the ASCII range. -/
def lowerChar (c : Char) : Char :=
  if 'A' ≤ c ∧ c ≤ 'Z' then Char.ofNat (c.toNat + 32) else c

/-- ASCII upper-casing of a single character, as JS `toUpperCase` acts on
the ASCII range. -/
def upperChar (c : Char) : Char :=
  if 'a' ≤ c ∧ c ≤ 'z' then Char.ofNat (c.toNat - 32) else c

/-- JS `String.prototype.toLowerCase` (ASCII range). -/
def jsToLower (s : String) : String := ⟨s.data.map lowerChar⟩

/-- JS `String.prototype.toUpperCase` (ASCII range). -/
def jsToUpper (s : String) : String := ⟨s.data.map upperChar⟩

/-- JS `String.prototype.substring(1)`: drop the first character. -/
def jsSubstring1 (s : String) : String := ⟨s.data.drop 1⟩

/-- JS `String.prototype.endsWith`. -/
def jsEndsWith (s suffix : String) : Bool := suffix.data.isSuffixOf s.data

/-- The last non-empty path segment, as Node `path.posix` computes it
(trailing slashes are skipped, then everything after the last slash is
taken). -/
def nodeBasename (s : List Char) : List Char :=
  ((s.reverse.dropWhile (fun c => c == '/')).takeWhile (fun c => c != '/')).reverse

/-- Node `path.extname` restricted to a basename: the suffix starting at
the last dot, except that a dot in first position (hidden files), a
basename without a dot, and the basename ".." all yield the empty
string. This is exactly the posix `extname` condition
(startDot/preDotState bookkeeping) expressed structurally. -/
def extnameBase (b : List Char) : List Char :=
  let afterRev := b.reverse.takeWhile (fun c => c != '.')
  if afterRev.length = b.length then []
  else if afterRev.length + 1 = b.length then []
  else if b = ['.', '.'] then []
  else '.' :: afterRev.reverse

/-- Node `path.extname` (posix). -/
def extname (s : String) : String := ⟨extnameBase (nodeBasename s.data)⟩

/-- The MIME allow-list shared by the multer `fileFilter`
(src/server/index.js lines 43-48) and the client `validateFile`
(FileUploader.tsx lines 30-35). -/
def allowedTypes : List String :=
  ["text/csv",
   "application/vnd.ms-excel",
   "application/vnd.openxmlformats-officedocument.spreadsheetml.sheet",
   "application/csv"]

/-- The extension allow-list shared by server and client. -/
def allowedExtensions : List String := [".csv", ".xls", ".xlsx"]

/-- The multer `fileFilter` decision (src/server/index.js lines 42-58):
accept when the declared MIME type is allowed or the lower-cased
`path.extname` of the original name is allowed. -/
def fileFilterAccepts (originalname mimetype : String) : Bool :=
  allowedTypes.contains mimetype
    || allowedExtensions.contains (jsToLower (extname originalname))

/-- A browser `File` as the client validator sees it: name, declared MIME
type, byte size. -/
structure ClientFile where
  name : String
  type : String
  size : Nat
deriving DecidableEq

/-- FileUploader.tsx lines 38-39: the lower-cased file name ends with one
of the allowed extensions. -/
def hasValidExtension (fileName : String) : Bool :=
  allowedExtensions.any (fun ext => jsEndsWith fileName ext)

/-- Client validation message for a type rejection (FileUploader.tsx line 42). -/
def invalidTypeMsgClient : String :=
  "Invalid file type. Please upload CSV or Excel files only."

/-- Size-rejection message, shared by the client validator (FileUploader.tsx
line 46) and the server error middleware (src/server/index.js line 261). -/
def fileTooLargeMsg : String := "File too large. Maximum size allowed is 10MB."

/-- FileUploader.tsx `validateFile` (lines 29-50): type check first
(MIME-or-extension, negated conjunction as in the source), then the
10 MiB size check; `none` means the file is accepted. -/
def validateFile (f : ClientFile) : Option String :=
  let fileName := jsToLower f.name
  if !(allowedTypes.contains f.type) && !(hasValidExtension fileName) then
    some invalidTypeMsgClient
  else if f.size > 10 * 1024 * 1024 then
    some fileTooLargeMsg
  else
    none

/-- One parsed data row: an insertion-ordered mapping from column name to
cell value, as csv-parser and `XLSX.utils.sheet_to_json` build it
(insertion order = source column order). -/
abbrev Row := List (String × String)

/-- A parsed workbook as the xlsx library presents it: the sheets, each
with its row sequence, in the file-declared `SheetNames` order. -/
abbrev Workbook := List (String × List Row)

/-- JS property assignment `obj[k] = v` on a string-keyed object: an
existing key keeps its position, a fresh key is appended. -/
def jsSet (obj : List (String × α)) (k : String) (v : α) : List (String × α) :=
  if obj.any (fun p => p.1 == k) then
    obj.map (fun p => if p.1 == k then (k, v) else p)
  else
    obj ++ [(k, v)]

/-- JS property read `obj[k]`. -/
def jsGet (obj : List (String × α)) (k : String) : Option α :=
  (obj.find? (fun p => p.1 == k)).map (fun p => p.2)

/-- Numeric value of a digit string. -/
def digitsToNat (l : List Char) : Nat :=
  l.foldl (fun acc c => acc * 10 + (c.toNat - 48)) 0

/-- ECMAScript array-index property key: a canonical decimal numeral (no
leading zero except "0" itself) whose value is below 2^32 - 1. -/
def isArrayIndexKey (s : String) : Bool :=
  match s.data with
  | [] => false
  | c :: cs =>
    (c :: cs).all (fun d => d.isDigit)
      && (decide (c ≠ '0') || decide (cs = []))
      && decide (digitsToNat (c :: cs) < 4294967295)

/-- Numeric value of a key (used only to order array-index keys). -/
def keyNum (s : String) : Nat := digitsToNat s.data

/-- JS `Object.keys` on a string-keyed object: array-index keys in
ascending numeric order first, then the remaining keys in insertion
order (ECMAScript OrdinaryOwnPropertyKeys). -/
def objectKeys (obj : List (String × α)) : List String :=
  let ks := obj.map (fun p => p.1)
  List.insertionSort (fun a b => keyNum a ≤ keyNum b) (ks.filter isArrayIndexKey)
    ++ ks.filter (fun k => !(isArrayIndexKey k))

/-- The filesystem as the handler observes it: the list of existing paths. -/
abbrev FS := List String

/-- `fs.existsSync`. -/
def existsSync (fs : FS) (p : String) : Bool := fs.contains p

/-- The filesystem after a successful `fs.unlinkSync(p)`: `p` no longer
exists. -/
def unlinkResult (fs : FS) (p : String) : FS := fs.filter (fun q => q != p)

/-- `fs.unlinkSync` as a fallible call: deletes an existing path, throws
(ENOENT) on a missing one. -/
def unlinkSyncE (fs : FS) (p : String) : Except String FS :=
  if existsSync fs p then .ok (unlinkResult fs p) else .error "ENOENT"

/-- The guarded deletion the handler performs on both exit paths
(src/server/index.js lines 186-189 and 206-209):
`if (fs.existsSync(filePath)) fs.unlinkSync(filePath)`. -/
def cleanupSafe (fs : FS) (p : String) : FS :=
  if existsSync fs p then unlinkResult fs p else fs

/-- The guarded deletion with the possibility of an unlink exception made
explicit: the existence check ensures the missing-file case never takes
the throwing branch. -/
def releaseE (fs : FS) (p : String) : Except String FS :=
  if existsSync fs p then unlinkSyncE fs p else .ok fs

/-- The `processingInfo` object the handler builds
(src/server/index.js lines 144-149, 161-162, 178-180); the
format-specific counters are `Option`s because the source attaches them
by mutation only on the matching branch. -/
structure ProcessingInfo where
  fileName : String
  fileSize : String
  fileType : String
  processedAt : String
  rowCount : Option Nat
  columns : Option (List String)
  sheetCount : Option Nat
  sheetNames : Option (List String)
  totalRows : Option Nat
deriving DecidableEq

/-- The parsed payload placed in the response `data` field: a row
sequence for CSV, a sheet-name-keyed object for Excel. -/
inductive FileData where
  | csv (rows : List Row)
  | excel (sheets : List (String × List Row))
deriving DecidableEq

/-- A JSON response as the server emits it: HTTP status plus the body
fields; `data`/`processingInfo` are `none` when the body omits them. -/
structure HttpResponse where
  status : Nat
  success : Bool
  message : String
  data : Option FileData
  processingInfo : Option ProcessingInfo
deriving DecidableEq

/-- `(size / 1024).toFixed(2) + " KB"` (src/server/index.js line 146),
computed in exact arithmetic (round half up on the hundredths). No claim
inspects this string. -/
def formatKB (size : Nat) : String :=
  let hundredths := (size * 100 + 512) / 1024
  toString (hundredths / 100) ++ "."
    ++ (if hundredths % 100 < 10 then "0" else "") ++ toString (hundredths % 100)
    ++ " KB"

/-- A file multer has accepted and written to the upload directory:
`req.file` in the handler. -/
structure UploadedFile where
  originalname : String
  mimetype : String
  size : Nat
  path : String
deriving DecidableEq

/-- `processCSV` (src/server/index.js lines 62-75) resolves with the
parsed rows or rejects with the stream error; the csv-parser library is
the abstract `csvRead` parameter. -/
def processCSV (csvRead : String → Except String (List Row)) (filePath : String) :
    Except String (List Row) :=
  csvRead filePath

/-- `processExcel` (src/server/index.js lines 78-117): read the workbook
(abstract `excelRead` parameter for the xlsx library), build the result
object sheet by sheet in `SheetNames` order, and wrap any error message.
-/
def processExcel (excelRead : String → Except String Workbook) (filePath : String) :
    Except String (List (String × List Row)) :=
  match excelRead filePath with
  | .ok wb => .ok (wb.foldl (fun result s => jsSet result s.1 s.2) [])
  | .error e => .error ("Error processing Excel file: " ++ e)

/-- The body of the handler's inner `try` (src/server/index.js lines
143-183): build `processingInfo`, dispatch on the lower-cased extension,
attach the format-specific fields; any unmatched extension throws
`Unsupported file type`. -/
def processRequest (file : UploadedFile)
    (csvRead : String → Except String (List Row))
    (excelRead : String → Except String Workbook)
    (now : String) : Except String (FileData × ProcessingInfo) :=
  let fileExtension := jsToLower (extname file.originalname)
  let info0 : ProcessingInfo :=
    { fileName := file.originalname
      fileSize := formatKB file.size
      fileType := jsSubstring1 (jsToUpper fileExtension)
      processedAt := now
      rowCount := none, columns := none
      sheetCount := none, sheetNames := none, totalRows := none }
  if fileExtension = ".csv" then
    match processCSV csvRead file.path with
    | .ok fileData =>
      .ok (.csv fileData,
        { info0 with
            rowCount := some fileData.length
            columns := some (if fileData.length > 0 then objectKeys fileData.headI else []) })
    | .error e => .error e
  else if fileExtension = ".xlsx" ∨ fileExtension = ".xls" then
    match processExcel excelRead file.path with
    | .ok fileData =>
      let sheetNames := objectKeys fileData
      let totalRows := sheetNames.foldl (fun acc n => acc + ((jsGet fileData n).getD []).length) 0
      .ok (.excel fileData,
        { info0 with
            sheetCount := some sheetNames.length
            sheetNames := some sheetNames
            totalRows := some totalRows })
    | .error e => .error e
  else
    .error ("Unsupported file type: " ++ fileExtension)

/-- The `POST /api/upload` handler (src/server/index.js lines 120-227):
the no-file branch answers 400; otherwise the inner try/catch processes
the stored file, deletes the temp file on both the success and the error
path (guarded by `existsSync`), and answers 200 with data and summary or
500 with only a message. -/
def handleUpload (fs : FS) (reqFile : Option UploadedFile)
    (csvRead : String → Except String (List Row))
    (excelRead : String → Except String Workbook)
    (now : String) : FS × HttpResponse :=
  match reqFile with
  | none =>
    (fs, { status := 400, success := false, message := "No file uploaded"
           data := none, processingInfo := none })
  | some file =>
    match processRequest file csvRead excelRead now with
    | .ok (fileData, info) =>
      (cleanupSafe fs file.path,
       { status := 200, success := true, message := "File processed successfully"
         data := some fileData, processingInfo := some info })
    | .error msg =>
      (cleanupSafe fs file.path,
       { status := 500, success := false
         message := "Error processing file: " ++ msg
         data := none, processingInfo := none })

/-- An incoming multipart file before multer touches it: the declared
metadata plus the temp path the diskStorage name generator would assign. -/
structure IncomingFile where
  originalname : String
  mimetype : String
  size : Nat
  tempPath : String
deriving DecidableEq

/-- What multer hands to the rest of the middleware chain. -/
inductive MulterOutcome where
  | noFile
  | stored (f : UploadedFile)
  | filterError (msg : String)
  | sizeError
deriving DecidableEq

/-- `upload.single('file')` over the configuration at
src/server/index.js lines 37-59, following multer's documented
behaviour: `fileFilter` sees the file's metadata before any bytes are
written, so a filter rejection fires even for oversize files, with the
plain `Error` from line 56 (not a `MulterError`); the `fileSize` limit
aborts the disk write (removing the partial file) with a `MulterError`
of code `LIMIT_FILE_SIZE` once the body exceeds 10 MiB. -/
def multerSingle (inc : Option IncomingFile) : MulterOutcome :=
  match inc with
  | none => .noFile
  | some f =>
    if fileFilterAccepts f.originalname f.mimetype then
      if f.size > 10 * 1024 * 1024 then .sizeError
      else .stored { originalname := f.originalname, mimetype := f.mimetype
                     size := f.size, path := f.tempPath }
    else .filterError "Invalid file type. Only CSV and Excel files are allowed."

/-- An error object reaching the Express error middleware. -/
structure ServerError where
  isMulterError : Bool
  code : Option String
  message : String
deriving DecidableEq

/-- The error handling middleware (src/server/index.js lines 252-270):
only a `MulterError` with code `LIMIT_FILE_SIZE` gets the 400
size-specific answer; every other error gets a generic 500. -/
def errorMiddleware (e : ServerError) : HttpResponse :=
  if e.isMulterError && (e.code == some "LIMIT_FILE_SIZE") then
    { status := 400, success := false, message := fileTooLargeMsg
      data := none, processingInfo := none }
  else
    { status := 500, success := false, message := e.message
      data := none, processingInfo := none }

/-- One complete `POST /api/upload` request: multer runs first; a stored
file is written to the upload directory and handed to the handler; a
multer error skips the handler and reaches the error middleware. -/
def serveUpload (fs : FS) (inc : Option IncomingFile)
    (csvRead : String → Except String (List Row))
    (excelRead : String → Except String Workbook)
    (now : String) : FS × HttpResponse :=
  match multerSingle inc with
  | .noFile => handleUpload fs none csvRead excelRead now
  | .stored f => handleUpload (f.path :: fs) (some f) csvRead excelRead now
  | .filterError msg =>
    (fs, errorMiddleware { isMulterError := false, code := none, message := msg })
  | .sizeError =>
    (fs, errorMiddleware { isMulterError := true, code := some "LIMIT_FILE_SIZE"
                           message := "File too large" })

/-- Strip one leading dot, as in the claim's "with the leading dot
removed". -/
def dropLeadingDot (s : String) : String :=
  if s.data.headI = '.' then ⟨s.data.drop 1⟩ else s

/-- The handler's fileType tag (src/server/index.js line 147):
`fileExtension.toUpperCase().substring(1)` over the lower-cased
extension. -/
def fileTypeTag (originalname : String) : String :=
  jsSubstring1 (jsToUpper (jsToLower (extname originalname)))

/-- The claim's reading of the tag: the (lower-cased) extension with the
leading dot removed, converted to upper case. -/
def specFileTag (originalname : String) : String :=
  jsToUpper (dropLeadingDot (jsToLower (extname originalname)))

/-- Which preview `renderDataPreview` (FileUploader.tsx lines 117-215)
renders: nothing without data, the delimited (CSV-style) preview when
the summary's fileType is "CSV", the workbook preview otherwise. -/
inductive PreviewKind where
  | empty
  | delimited
  | workbook
deriving DecidableEq

/-- The dispatch of `renderDataPreview` (FileUploader.tsx lines 118-120 and
160). -/
def renderDataPreviewKind (data : Option FileData) (info : ProcessingInfo) : PreviewKind :=
  match data with
  | none => .empty
  | some _ => if info.fileType = "CSV" then .delimited else .workbook

/-! ### Helper lemmas -/

theorem contains_iff_mem (l : List String) (a : String) :
    l.contains a = true ↔ a ∈ l :=
  List.elem_iff

theorem contains_filter_ne (fs : List String) (p : String) :
    (fs.filter (fun q => q != p)).contains p = false := by
  rw [Bool.eq_false_iff]
  intro h
  have hm := (contains_iff_mem _ _).mp h
  have := List.of_mem_filter hm
  simp at this

theorem cleanupSafe_not_contains (fs : FS) (p : String) :
    (cleanupSafe fs p).contains p = false := by
  unfold cleanupSafe unlinkResult existsSync
  split
  · exact contains_filter_ne fs p
  · next h => simpa using h

theorem filter_append_filter_not_perm {α : Type} (p : α → Bool) (l : List α) :
    (l.filter p ++ l.filter (fun x => !p x)).Perm l := by
  induction l with
  | nil => simp
  | cons a t ih =>
    by_cases h : p a = true
    · simpa [h] using ih.cons a
    · have h' : p a = false := by revert h; cases p a <;> simp
      simp only [List.filter_cons, h', Bool.not_false, if_false, if_true,
        Bool.false_eq_true, ite_false, ite_true]
      exact List.perm_middle.trans (ih.cons a)

theorem objectKeys_perm {α : Type} (obj : List (String × α)) :
    (objectKeys obj).Perm (obj.map (fun p => p.1)) := by
  unfold objectKeys
  exact ((List.perm_insertionSort _ _).append_right _).trans
    (filter_append_filter_not_perm _ _)

theorem objectKeys_of_no_index {α : Type} (obj : List (String × α))
    (h : (obj.map (fun p => p.1)).all (fun k => !(isArrayIndexKey k)) = true) :
    objectKeys obj = obj.map (fun p => p.1) := by
  have hall := List.all_eq_true.mp h
  have h1 : (obj.map (fun p => p.1)).filter isArrayIndexKey = [] :=
    List.filter_eq_nil_iff.mpr (by
      intro a ha
      have := hall a ha
      simpa using this)
  have h2 : (obj.map (fun p => p.1)).filter (fun k => !(isArrayIndexKey k))
      = obj.map (fun p => p.1) :=
    List.filter_eq_self.mpr (fun a ha => hall a ha)
  simp only [objectKeys]
  rw [h1, h2]
  rfl

theorem jsSet_fresh {α : Type} (obj : List (String × α)) (k : String) (v : α)
    (h : k ∉ obj.map (fun p => p.1)) : jsSet obj k v = obj ++ [(k, v)] := by
  unfold jsSet
  rw [if_neg]
  intro hx
  rcases List.any_eq_true.mp hx with ⟨p, hp, hbeq⟩
  have hpk : p.1 = k := by simpa using hbeq
  exact h (hpk ▸ List.mem_map_of_mem _ hp)

theorem buildObj_nodup_aux (wb : Workbook) :
    ∀ acc : List (String × List Row),
      (wb.map (fun p => p.1)).Nodup →
      (∀ k ∈ wb.map (fun p => p.1), k ∉ acc.map (fun p => p.1)) →
      wb.foldl (fun result s => jsSet result s.1 s.2) acc = acc ++ wb := by
  induction wb with
  | nil =>
    intro acc _ _
    simp
  | cons s t ih =>
    intro acc hnd hdisj
    have hnd' : s.1 ∉ t.map (fun p => p.1) ∧ (t.map (fun p => p.1)).Nodup := by
      simp only [List.map_cons, List.nodup_cons] at hnd
      exact hnd
    simp only [List.foldl_cons]
    rw [jsSet_fresh acc s.1 s.2 (hdisj s.1 (by simp))]
    rw [ih (acc ++ [(s.1, s.2)]) hnd'.2 ?_]
    · simp
    · intro k hk
      simp only [List.map_append, List.mem_append]
      rintro (hka | hks)
      · exact hdisj k (by simp [hk]) hka
      · have hks' : k = s.1 := by simpa using hks
        subst hks'
        exact hnd'.1 hk

theorem buildObj_eq_self (wb : Workbook) (h : (wb.map (fun p => p.1)).Nodup) :
    wb.foldl (fun result s => jsSet result s.1 s.2) [] = wb := by
  simpa using buildObj_nodup_aux wb [] h (by simp)

theorem jsGet_of_mem {α : Type} (obj : List (String × α)) (s : String × α)
    (hnd : (obj.map (fun p => p.1)).Nodup) (hmem : s ∈ obj) :
    jsGet obj s.1 = some s.2 := by
  induction obj with
  | nil => cases hmem
  | cons a t ih =>
    have hnd' : a.1 ∉ t.map (fun p => p.1) ∧ (t.map (fun p => p.1)).Nodup := by
      simp only [List.map_cons, List.nodup_cons] at hnd
      exact hnd
    rcases List.mem_cons.mp hmem with rfl | hmem'
    · unfold jsGet
      simp [List.find?]
    · have hne : (a.1 == s.1) = false := by
        rw [beq_eq_false_iff_ne]
        intro he
        exact hnd'.1 (he ▸ List.mem_map_of_mem _ hmem')
      unfold jsGet
      rw [List.find?]
      rw [hne]
      exact ih hnd'.2 hmem'

theorem foldl_add_eq_sum (f : String → Nat) (l : List String) :
    ∀ a : Nat, l.foldl (fun acc n => acc + f n) a = a + (l.map f).sum := by
  induction l with
  | nil =>
    intro a
    simp
  | cons x t ih =>
    intro a
    simp only [List.foldl_cons, List.map_cons, List.sum_cons, ih]
    omega

theorem totalRows_eq (wb : Workbook) (hnd : (wb.map (fun p => p.1)).Nodup) :
    (objectKeys wb).foldl (fun acc n => acc + ((jsGet wb n).getD []).length) 0
      = (wb.map (fun s => s.2.length)).sum := by
  rw [foldl_add_eq_sum]
  rw [Nat.zero_add]
  have hperm := (objectKeys_perm wb).map (fun n => ((jsGet wb n).getD []).length)
  rw [hperm.sum_eq]
  rw [List.map_map]
  apply congrArg
  apply List.map_congr_left
  intro s hs
  simp only [Function.comp_apply]
  rw [jsGet_of_mem wb s hnd hs]
  rfl

/-! ### Claims -/

/-- C1: for every request whose file multer stored (the handler runs with
`req.file` present), the handler's resulting filesystem no longer
contains the temp path — the guarded deletion runs on the success path
and on the processing-error path alike, before the response is emitted. -/
theorem stored_file_deleted_on_every_exit (fs : FS) (file : UploadedFile)
    (csvRead : String → Except String (List Row))
    (excelRead : String → Except String Workbook) (now : String) :
    ((handleUpload fs (some file) csvRead excelRead now).1).contains file.path = false := by
  cases h : processRequest file csvRead excelRead now with
  | ok v =>
    obtain ⟨d, i⟩ := v
    simp only [handleUpload, h]
    exact cleanupSafe_not_contains fs file.path
  | error m =>
    simp only [handleUpload, h]
    exact cleanupSafe_not_contains fs file.path

/-- C2: the multer `fileFilter` accepts exactly when the lower-cased
extension is allowed or the declared MIME type is allowed, each condition
alone sufficing; on the client, an allowed MIME type alone or an allowed
extension suffix alone already passes the type check of `validateFile`. -/
theorem validator_accepts_ext_or_mime (name mime : String) :
    (fileFilterAccepts name mime = true ↔
      jsToLower (extname name) ∈ allowedExtensions ∨ mime ∈ allowedTypes)
    ∧ (jsToLower (extname name) ∈ allowedExtensions → fileFilterAccepts name mime = true)
    ∧ (mime ∈ allowedTypes → fileFilterAccepts name mime = true)
    ∧ (∀ f : ClientFile, allowedTypes.contains f.type = true →
        validateFile f ≠ some invalidTypeMsgClient)
    ∧ (∀ f : ClientFile, hasValidExtension (jsToLower f.name) = true →
        validateFile f ≠ some invalidTypeMsgClient) := by
  have hiff : fileFilterAccepts name mime = true ↔
      jsToLower (extname name) ∈ allowedExtensions ∨ mime ∈ allowedTypes := by
    unfold fileFilterAccepts
    rw [Bool.or_eq_true, contains_iff_mem, contains_iff_mem, or_comm]
  refine ⟨hiff, ?_, ?_, ?_, ?_⟩
  · intro h; exact hiff.mpr (Or.inl h)
  · intro h; exact hiff.mpr (Or.inr h)
  · intro f h
    have hcond : (!(allowedTypes.contains f.type)
        && !(hasValidExtension (jsToLower f.name))) = false := by
      rw [h]; simp
    simp only [validateFile, hcond, Bool.false_eq_true, if_false]
    split <;> decide
  · intro f h
    have hcond : (!(allowedTypes.contains f.type)
        && !(hasValidExtension (jsToLower f.name))) = false := by
      rw [h]; simp
    simp only [validateFile, hcond, Bool.false_eq_true, if_false]
    split <;> decide

/-- C2 witness: concrete files exercising each sufficiency direction. -/
theorem validator_accepts_ext_or_mime_witness :
    fileFilterAccepts "Report.XLSX" "application/octet-stream" = true
    ∧ fileFilterAccepts "data.bin" "text/csv" = true
    ∧ validateFile ⟨"data.bin", "text/csv", 5⟩ ≠ some invalidTypeMsgClient
    ∧ validateFile ⟨"Report.XLSX", "zzz", 5⟩ ≠ some invalidTypeMsgClient :=
  ⟨(validator_accepts_ext_or_mime "Report.XLSX" "application/octet-stream").2.1 (by decide),
   (validator_accepts_ext_or_mime "data.bin" "text/csv").2.2.1 (by decide),
   (validator_accepts_ext_or_mime "data.bin" "text/csv").2.2.2.1
     ⟨"data.bin", "text/csv", 5⟩ (by decide),
   (validator_accepts_ext_or_mime "Report.XLSX" "zzz").2.2.2.2
     ⟨"Report.XLSX", "zzz", 5⟩ (by decide)⟩

/-- C9: the guarded release never throws — it always yields the guarded
deletion's filesystem — and on a missing file it is a no-op returning the
filesystem unchanged without an error. -/
theorem release_missing_file_is_noop (fs : FS) (p : String) :
    releaseE fs p = .ok (cleanupSafe fs p)
    ∧ (existsSync fs p = false →
        releaseE fs p = .ok fs ∧ cleanupSafe fs p = fs) := by
  constructor
  · unfold releaseE cleanupSafe unlinkSyncE
    split
    · next h => simp [h]
    · rfl
  · intro h
    unfold releaseE cleanupSafe
    simp [h]

/-- C9 witness: releasing a path that is not on disk leaves the
filesystem unchanged and reports no error. -/
theorem release_missing_file_is_noop_witness :
    releaseE ["uploads/file-1-2.csv"] "uploads/gone.csv" = .ok ["uploads/file-1-2.csv"]
    ∧ cleanupSafe ["uploads/file-1-2.csv"] "uploads/gone.csv" = ["uploads/file-1-2.csv"] :=
  (release_missing_file_is_noop ["uploads/file-1-2.csv"] "uploads/gone.csv").2 (by decide)

/-- C3 counterexample: a file rejected for invalid type is answered with
status 500, not 400 — the `fileFilter` rejection is a plain `Error`, so
the error middleware's `MulterError` test fails and the generic 500
branch answers. -/
theorem invalid_type_status_counterexample :
    (serveUpload [] (some ⟨"a.txt", "text/plain", 5, "uploads/file-1.txt"⟩)
        (fun _ => .error "e") (fun _ => .error "e") "t").2.status = 500
    ∧ (serveUpload [] (some ⟨"a.txt", "text/plain", 5, "uploads/file-1.txt"⟩)
        (fun _ => .error "e") (fun _ => .error "e") "t").2.message
      = "Invalid file type. Only CSV and Excel files are allowed." := by
  decide

/-- C3 (amended): 200 on success; 400 for no-file-present and for an
accepted-type file over 10 MiB; 500 for invalid-type rejections and for
any parse or internal failure. -/
theorem status_codes_amended (fs : FS) (f : IncomingFile)
    (csvRead : String → Except String (List Row))
    (excelRead : String → Except String Workbook) (now : String) :
    (serveUpload fs none csvRead excelRead now).2.status = 400
    ∧ (fileFilterAccepts f.originalname f.mimetype = false →
        (serveUpload fs (some f) csvRead excelRead now).2.status = 500)
    ∧ (fileFilterAccepts f.originalname f.mimetype = true →
        f.size > 10 * 1024 * 1024 →
        (serveUpload fs (some f) csvRead excelRead now).2.status = 400)
    ∧ (fileFilterAccepts f.originalname f.mimetype = true →
        f.size ≤ 10 * 1024 * 1024 →
        ((serveUpload fs (some f) csvRead excelRead now).2.status = 200
            ↔ (processRequest ⟨f.originalname, f.mimetype, f.size, f.tempPath⟩
                csvRead excelRead now).isOk = true)
        ∧ ((serveUpload fs (some f) csvRead excelRead now).2.status = 500
            ↔ (processRequest ⟨f.originalname, f.mimetype, f.size, f.tempPath⟩
                csvRead excelRead now).isOk = false)) := by
  refine ⟨rfl, ?_, ?_, ?_⟩
  · intro h
    simp [serveUpload, multerSingle, h, errorMiddleware]
  · intro h1 h2
    simp [serveUpload, multerSingle, h1, h2, errorMiddleware]
  · intro h1 h2
    have hsz : ¬ (f.size > 10 * 1024 * 1024) := by omega
    cases hp : processRequest ⟨f.originalname, f.mimetype, f.size, f.tempPath⟩
        csvRead excelRead now with
    | ok v =>
      obtain ⟨d, i⟩ := v
      constructor <;>
        simp [serveUpload, multerSingle, h1, hsz, handleUpload, hp,
          Except.isOk, Except.toBool]
    | error m =>
      constructor <;>
        simp [serveUpload, multerSingle, h1, hsz, handleUpload, hp,
          Except.isOk, Except.toBool]

/-- C3 witness: an invalid-type rejection takes the 500 branch and an
oversize accepted-type file the 400 branch. -/
theorem status_codes_amended_witness :
    (serveUpload [] (some ⟨"b.txt", "application/pdf", 5, "u/t"⟩)
        (fun _ => Except.error "boom") (fun _ => Except.error "boom") "t").2.status = 500
    ∧ (serveUpload [] (some ⟨"b.csv", "text/csv", 10485761, "u/t"⟩)
        (fun _ => Except.error "boom") (fun _ => Except.error "boom") "t").2.status = 400 :=
  ⟨(status_codes_amended [] ⟨"b.txt", "application/pdf", 5, "u/t"⟩
      (fun _ => Except.error "boom") (fun _ => Except.error "boom") "t").2.1 (by decide),
   (status_codes_amended [] ⟨"b.csv", "text/csv", 10485761, "u/t"⟩
      (fun _ => Except.error "boom") (fun _ => Except.error "boom") "t").2.2.1
     (by decide) (by decide)⟩

/-- C4 counterexample: a file one byte over 10 MiB whose type is not
allowed is rejected with the type-specific message, not the size-specific
one — the validators check the type first, so the size message is not
produced "regardless of MIME type or extension". -/
theorem oversize_invalid_type_counterexample :
    validateFile ⟨"a.txt", "text/plain", 10485761⟩ = some invalidTypeMsgClient
    ∧ validateFile ⟨"a.txt", "text/plain", 10485761⟩ ≠ some fileTooLargeMsg
    ∧ (serveUpload [] (some ⟨"a.txt", "text/plain", 10485761, "u/t"⟩)
        (fun _ => .error "e") (fun _ => .error "e") "t").2.message ≠ fileTooLargeMsg := by
  decide

/-- C4 (amended): a file over 10 MiB that passes the type check is
rejected with the size-specific message — client validator and server
limit alike — and the size message is distinguishable from the
invalid-type message; when the type check also fails, the type message
takes precedence. -/
theorem oversize_rejected_amended (f : ClientFile) (g : IncomingFile) (fs : FS)
    (csvRead : String → Except String (List Row))
    (excelRead : String → Except String Workbook) (now : String) :
    (f.size > 10 * 1024 * 1024 →
      (allowedTypes.contains f.type || hasValidExtension (jsToLower f.name)) = true →
      validateFile f = some fileTooLargeMsg)
    ∧ (g.size > 10 * 1024 * 1024 →
        fileFilterAccepts g.originalname g.mimetype = true →
        (serveUpload fs (some g) csvRead excelRead now).2 =
          { status := 400, success := false, message := fileTooLargeMsg
            data := none, processingInfo := none })
    ∧ fileTooLargeMsg ≠ invalidTypeMsgClient := by
  refine ⟨?_, ?_, by decide⟩
  · intro h1 h2
    have hcond : (!(allowedTypes.contains f.type)
        && !(hasValidExtension (jsToLower f.name))) = false := by
      cases ha : allowedTypes.contains f.type
      · cases hb : hasValidExtension (jsToLower f.name)
        · rw [ha, hb] at h2
          exact absurd h2 (by decide)
        · rfl
      · rfl
    simp only [validateFile, hcond, Bool.false_eq_true, if_false]
    rw [if_pos h1]
  · intro h1 h2
    simp [serveUpload, multerSingle, h1, h2, errorMiddleware]

/-- C4 witness: an oversize file of allowed type gets the size message on
both the client and the server. -/
theorem oversize_rejected_amended_witness :
    validateFile ⟨"big.csv", "text/plain", 10485761⟩ = some fileTooLargeMsg
    ∧ (serveUpload [] (some ⟨"big.csv", "text/csv", 10485761, "u/t"⟩)
        (fun _ => Except.error "e") (fun _ => Except.error "e") "t").2 =
        { status := 400, success := false, message := fileTooLargeMsg
          data := none, processingInfo := none } :=
  ⟨(oversize_rejected_amended ⟨"big.csv", "text/plain", 10485761⟩
      ⟨"big.csv", "text/csv", 10485761, "u/t"⟩ []
      (fun _ => Except.error "e") (fun _ => Except.error "e") "t").1
      (by decide) (by decide),
   (oversize_rejected_amended ⟨"big.csv", "text/plain", 10485761⟩
      ⟨"big.csv", "text/csv", 10485761, "u/t"⟩ []
      (fun _ => Except.error "e") (fun _ => Except.error "e") "t").2.1
      (by decide) (by decide)⟩

/-- C5: a file that passed the multer filter but whose lower-cased
extension is none of .csv/.xls/.xlsx makes the dispatch fail with the
`Unsupported file type` error — a 500 failure response with no data —
and the result does not depend on either parser. -/
theorem unsupported_format_after_validation (fs : FS) (file : UploadedFile)
    (csvRead csvRead2 : String → Except String (List Row))
    (excelRead excelRead2 : String → Except String Workbook) (now : String)
    (hacc : fileFilterAccepts file.originalname file.mimetype = true)
    (hext : jsToLower (extname file.originalname) ∉ allowedExtensions) :
    (handleUpload fs (some file) csvRead excelRead now).2
      = { status := 500, success := false
          message := "Error processing file: "
            ++ ("Unsupported file type: " ++ jsToLower (extname file.originalname))
          data := none, processingInfo := none }
    ∧ handleUpload fs (some file) csvRead excelRead now
        = handleUpload fs (some file) csvRead2 excelRead2 now := by
  have hl : ∀ e ∈ allowedExtensions, jsToLower (extname file.originalname) ≠ e := by
    intro e he hne
    exact hext (hne ▸ he)
  have h1 : jsToLower (extname file.originalname) ≠ ".csv" := hl _ (by decide)
  have h2 : ¬ (jsToLower (extname file.originalname) = ".xlsx"
      ∨ jsToLower (extname file.originalname) = ".xls") := by
    rintro (h | h)
    · exact hl ".xlsx" (by decide) h
    · exact hl ".xls" (by decide) h
  have hpr : ∀ (cp : String → Except String (List Row))
      (ep : String → Except String Workbook),
      processRequest file cp ep now
        = .error ("Unsupported file type: " ++ jsToLower (extname file.originalname)) := by
    intro cp ep
    simp only [processRequest]
    rw [if_neg h1, if_neg h2]
  constructor
  · simp only [handleUpload, hpr]
  · simp only [handleUpload, hpr]

/-- C5 witness: a .txt file accepted via its CSV MIME type fails with the
unsupported-type 500 response. -/
theorem unsupported_format_after_validation_witness :
    fileFilterAccepts "data.txt" "text/csv" = true
    ∧ jsToLower (extname "data.txt") ∉ allowedExtensions
    ∧ (handleUpload ["u/t"] (some ⟨"data.txt", "text/csv", 9, "u/t"⟩)
        (fun _ => Except.ok []) (fun _ => Except.ok []) "t").2
      = { status := 500, success := false
          message := "Error processing file: Unsupported file type: .txt"
          data := none, processingInfo := none } :=
  ⟨by decide, by decide,
   ((unsupported_format_after_validation ["u/t"] ⟨"data.txt", "text/csv", 9, "u/t"⟩
      (fun _ => Except.ok []) (fun _ => Except.ok [])
      (fun _ => Except.ok []) (fun _ => Except.ok []) "t"
      (by decide) (by decide)).1).trans (by decide)⟩

theorem processRequest_csv_ok (file : UploadedFile)
    (csvRead : String → Except String (List Row))
    (excelRead : String → Except String Workbook) (now : String) (rows : List Row)
    (hext : jsToLower (extname file.originalname) = ".csv")
    (hcp : csvRead file.path = .ok rows) :
    processRequest file csvRead excelRead now = .ok (.csv rows,
      { fileName := file.originalname, fileSize := formatKB file.size
        fileType := "CSV", processedAt := now
        rowCount := some rows.length
        columns := some (if rows.length > 0 then objectKeys rows.headI else [])
        sheetCount := none, sheetNames := none, totalRows := none }) := by
  simp only [processRequest, hext, processCSV, hcp]
  rw [show jsSubstring1 (jsToUpper ".csv") = "CSV" from by decide]
  exact if_pos trivial

theorem processRequest_excel_ok (file : UploadedFile)
    (csvRead : String → Except String (List Row))
    (excelRead : String → Except String Workbook) (now : String) (wb : Workbook)
    (hext : jsToLower (extname file.originalname) = ".xlsx"
      ∨ jsToLower (extname file.originalname) = ".xls")
    (hep : excelRead file.path = .ok wb)
    (hnd : (wb.map (fun p => p.1)).Nodup) :
    processRequest file csvRead excelRead now = .ok (.excel wb,
      { fileName := file.originalname, fileSize := formatKB file.size
        fileType := jsSubstring1 (jsToUpper (jsToLower (extname file.originalname)))
        processedAt := now
        rowCount := none, columns := none
        sheetCount := some (objectKeys wb).length
        sheetNames := some (objectKeys wb)
        totalRows := some ((objectKeys wb).foldl
          (fun acc n => acc + ((jsGet wb n).getD []).length) 0) }) := by
  have hne : ¬ (jsToLower (extname file.originalname) = ".csv") := by
    rcases hext with h | h <;> rw [h] <;> decide
  have hpe : processExcel excelRead file.path = .ok wb := by
    simp only [processExcel, hep]
    rw [buildObj_eq_self wb hnd]
  simp only [processRequest, hpe]
  rw [if_neg hne, if_pos hext]

/-- C6 counterexample: a CSV whose header names are array-index strings
("10", "2") yields `columns = ["2","10"]`, not the source column order
["10","2"] — `Object.keys` enumerates array-index keys in ascending
numeric order first. -/
theorem csv_columns_counterexample :
    ((handleUpload ["u/t"] (some ⟨"d.csv", "text/csv", 3, "u/t"⟩)
        (fun _ => .ok [[("10", "a"), ("2", "b")]]) (fun _ => .error "e") "t").2.processingInfo.map
      (fun i => i.columns)) = some (some ["2", "10"])
    ∧ (["2", "10"] : List String) ≠ ["10", "2"] := by
  decide

/-- C6 (amended): for a successfully parsed CSV the summary's rowCount is
the row-sequence length and columns is `Object.keys` of the first row —
which is the source column order whenever no column name is an
array-index string — and a zero-row parse yields `columns = some []`,
present rather than omitted. -/
theorem csv_summary_amended (fs : FS) (file : UploadedFile) (rows : List Row)
    (csvRead : String → Except String (List Row))
    (excelRead : String → Except String Workbook) (now : String)
    (hext : jsToLower (extname file.originalname) = ".csv")
    (hcp : csvRead file.path = .ok rows) :
    ∃ info, (handleUpload fs (some file) csvRead excelRead now).2.processingInfo = some info
      ∧ info.rowCount = some rows.length
      ∧ info.columns = some (if rows.length > 0 then objectKeys rows.headI else [])
      ∧ (rows = [] → info.columns = some [])
      ∧ ((rows.headI.map (fun p => p.1)).all (fun k => !(isArrayIndexKey k)) = true →
          info.columns
            = some (if rows.length > 0 then rows.headI.map (fun p => p.1) else [])) := by
  have hpr := processRequest_csv_ok file csvRead excelRead now rows hext hcp
  refine ⟨{ fileName := file.originalname, fileSize := formatKB file.size
            fileType := "CSV", processedAt := now
            rowCount := some rows.length
            columns := some (if rows.length > 0 then objectKeys rows.headI else [])
            sheetCount := none, sheetNames := none, totalRows := none },
          ?_, rfl, rfl, ?_, ?_⟩
  · simp only [handleUpload, hpr]
  · rintro rfl
    rfl
  · intro h
    rw [objectKeys_of_no_index rows.headI h]

/-- C6 witness: a two-row CSV with columns a,b gives rowCount 2 and
columns [a, b]. -/
theorem csv_summary_amended_witness :
    ∃ info, (handleUpload ["u/t"]
        (some ⟨"d.csv", "text/csv", 3, "u/t"⟩)
        (fun _ => Except.ok [[("a", "1"), ("b", "2")], [("a", "3"), ("b", "4")]])
        (fun _ => Except.error "e") "t").2.processingInfo = some info
      ∧ info.rowCount = some 2
      ∧ info.columns = some (if (2 : Nat) > 0 then
          objectKeys [("a", "1"), ("b", "2")] else []) :=
  match csv_summary_amended ["u/t"] ⟨"d.csv", "text/csv", 3, "u/t"⟩
      [[("a", "1"), ("b", "2")], [("a", "3"), ("b", "4")]]
      (fun _ => Except.ok [[("a", "1"), ("b", "2")], [("a", "3"), ("b", "4")]])
      (fun _ => Except.error "e") "t" (by decide) rfl with
  | ⟨info, h1, h2, h3, _, _⟩ => ⟨info, h1, h2, h3⟩

/-- C7 counterexample: a workbook whose sheets are declared in the order
"10", "2" is summarized with `sheetNames = ["2","10"]` — `Object.keys`
order, not the workbook's declared order — while sheetCount and
totalRows are as claimed. -/
theorem workbook_sheetnames_counterexample :
    ((handleUpload ["u/t"] (some ⟨"w.xlsx", "application/vnd.ms-excel", 9, "u/t"⟩)
        (fun _ => .error "e")
        (fun _ => .ok [("10", List.replicate 5 [("a", "x")]),
                       ("2", List.replicate 3 [("a", "x")])]) "t").2.processingInfo.map
      (fun i => (i.sheetNames, i.sheetCount, i.totalRows)))
      = some (some ["2", "10"], some 2, some 8)
    ∧ (["2", "10"] : List String) ≠ ["10", "2"] := by
  decide

/-- C7 (amended): for a successfully parsed workbook with distinct sheet
names, sheetCount is the number of sheets and totalRows the sum of the
sheets' row counts; sheetNames is `Object.keys` of the sheet map — a
permutation of the declared names that equals the declared order
whenever no sheet name is an array-index string. -/
theorem workbook_summary_amended (fs : FS) (file : UploadedFile) (wb : Workbook)
    (csvRead : String → Except String (List Row))
    (excelRead : String → Except String Workbook) (now : String)
    (hext : jsToLower (extname file.originalname) = ".xlsx"
      ∨ jsToLower (extname file.originalname) = ".xls")
    (hep : excelRead file.path = .ok wb)
    (hnd : (wb.map (fun p => p.1)).Nodup) :
    ∃ info, (handleUpload fs (some file) csvRead excelRead now).2.processingInfo = some info
      ∧ info.sheetCount = some wb.length
      ∧ info.totalRows = some (wb.map (fun s => s.2.length)).sum
      ∧ info.sheetNames = some (objectKeys wb)
      ∧ (objectKeys wb).Perm (wb.map (fun p => p.1))
      ∧ ((wb.map (fun p => p.1)).all (fun k => !(isArrayIndexKey k)) = true →
          info.sheetNames = some (wb.map (fun p => p.1))) := by
  have hpr := processRequest_excel_ok file csvRead excelRead now wb hext hep hnd
  refine ⟨{ fileName := file.originalname, fileSize := formatKB file.size
            fileType := jsSubstring1 (jsToUpper (jsToLower (extname file.originalname)))
            processedAt := now, rowCount := none, columns := none
            sheetCount := some (objectKeys wb).length
            sheetNames := some (objectKeys wb)
            totalRows := some ((objectKeys wb).foldl
              (fun acc n => acc + ((jsGet wb n).getD []).length) 0) },
          ?_, ?_, ?_, rfl, objectKeys_perm wb, ?_⟩
  · simp only [handleUpload, hpr]
  · have h2 : (objectKeys wb).length = wb.length := by
      rw [(objectKeys_perm wb).length_eq]
      simp
    rw [h2]
  · rw [totalRows_eq wb hnd]
  · intro h
    rw [objectKeys_of_no_index wb h]

/-- C7 witness: a workbook with sheets Alpha (5 rows) and Beta (3 rows)
gives sheetCount 2, totalRows 8, sheetNames in declared order. -/
theorem workbook_summary_amended_witness :
    ∃ info, (handleUpload ["u/t"]
        (some ⟨"w.xlsx", "text/csv", 9, "u/t"⟩)
        (fun _ => Except.error "e")
        (fun _ => Except.ok [("Alpha", List.replicate 5 [("a", "x")]),
                             ("Beta", List.replicate 3 [("a", "x")])]) "t").2.processingInfo
        = some info
      ∧ info.sheetCount = some 2
      ∧ info.totalRows = some 8
      ∧ info.sheetNames = some (objectKeys
          [("Alpha", List.replicate 5 [("a", "x")]), ("Beta", List.replicate 3 [("a", "x")])]) :=
  match workbook_summary_amended ["u/t"] ⟨"w.xlsx", "text/csv", 9, "u/t"⟩
      [("Alpha", List.replicate 5 [("a", "x")]), ("Beta", List.replicate 3 [("a", "x")])]
      (fun _ => Except.error "e")
      (fun _ => Except.ok [("Alpha", List.replicate 5 [("a", "x")]),
                           ("Beta", List.replicate 3 [("a", "x")])]) "t"
      (Or.inl (by decide)) rfl (by decide) with
  | ⟨info, h1, h2, h3, h4, _, _⟩ => ⟨info, h1, h2, by simpa using h3, h4⟩

/-- C8: a response of a completed request with success = false carries
neither data nor processingInfo, and a response carrying either of them
is a success response carrying both. -/
theorem failure_response_omits_data (fs : FS) (inc : Option IncomingFile)
    (csvRead : String → Except String (List Row))
    (excelRead : String → Except String Workbook) (now : String) :
    ((serveUpload fs inc csvRead excelRead now).2.success = false →
      (serveUpload fs inc csvRead excelRead now).2.data = none
        ∧ (serveUpload fs inc csvRead excelRead now).2.processingInfo = none)
    ∧ (((serveUpload fs inc csvRead excelRead now).2.data ≠ none
          ∨ (serveUpload fs inc csvRead excelRead now).2.processingInfo ≠ none) →
        (serveUpload fs inc csvRead excelRead now).2.success = true
          ∧ (serveUpload fs inc csvRead excelRead now).2.data ≠ none
          ∧ (serveUpload fs inc csvRead excelRead now).2.processingInfo ≠ none) := by
  cases inc with
  | none =>
    constructor <;> simp [serveUpload, multerSingle, handleUpload]
  | some f =>
    by_cases hacc : fileFilterAccepts f.originalname f.mimetype = true
    · by_cases hsz : f.size > 10 * 1024 * 1024
      · constructor <;> simp [serveUpload, multerSingle, hacc, hsz, errorMiddleware]
      · cases hp : processRequest ⟨f.originalname, f.mimetype, f.size, f.tempPath⟩
            csvRead excelRead now with
        | ok v =>
          obtain ⟨d, i⟩ := v
          constructor <;>
            simp [serveUpload, multerSingle, hacc, hsz, handleUpload, hp]
        | error m =>
          constructor <;>
            simp [serveUpload, multerSingle, hacc, hsz, handleUpload, hp]
    · have hacc' : fileFilterAccepts f.originalname f.mimetype = false := by
        revert hacc
        cases fileFilterAccepts f.originalname f.mimetype <;> simp
      constructor <;> simp [serveUpload, multerSingle, hacc', errorMiddleware]

/-- C8 witness: the no-file failure response has no data and no
processingInfo fields. -/
theorem failure_response_omits_data_witness :
    (serveUpload [] none (fun _ => Except.error "e")
        (fun _ => Except.error "e") "t").2.data = none
    ∧ (serveUpload [] none (fun _ => Except.error "e")
        (fun _ => Except.error "e") "t").2.processingInfo = none :=
  (failure_response_omits_data [] none (fun _ => Except.error "e")
    (fun _ => Except.error "e") "t").1 (by decide)

theorem extname_shape (s : String) :
    (extname s).data = [] ∨ ∃ r, (extname s).data = '.' :: r := by
  simp only [extname, extnameBase]
  split
  · left; rfl
  · split
    · left; rfl
    · split
      · left; rfl
      · right; exact ⟨_, rfl⟩

theorem fileTypeTag_eq_specFileTag (name : String) :
    fileTypeTag name = specFileTag name := by
  unfold fileTypeTag specFileTag jsSubstring1 jsToUpper jsToLower dropLeadingDot
  rcases extname_shape name with h | ⟨r, h⟩
  · rw [h]
    simp
  · rw [h]
    simp [show lowerChar '.' = '.' from by decide,
      show upperChar '.' = '.' from by decide]

theorem processRequest_fileType (file : UploadedFile)
    (cp : String → Except String (List Row)) (ep : String → Except String Workbook)
    (now : String) (v : FileData × ProcessingInfo)
    (h : processRequest file cp ep now = .ok v) :
    v.2.fileType = fileTypeTag file.originalname := by
  simp only [processRequest] at h
  split at h
  · cases hc : cp file.path with
    | ok rows =>
      simp only [processCSV, hc] at h
      cases h
      rfl
    | error e =>
      simp only [processCSV, hc] at h
      exact Except.noConfusion h
  · split at h
    · cases hc : processExcel ep file.path with
      | ok obj =>
        simp only [hc] at h
        cases h
        rfl
      | error e =>
        simp only [hc] at h
        exact Except.noConfusion h
    · exact Except.noConfusion h

/-- C10: the handler's fileType tag is the upper-cased extension with the
leading dot removed — both for the tag expression itself and for the
summary of every successful upload — and, with data present, the client
renders the delimited-style preview exactly when the tag equals "CSV". -/
theorem filetype_tag_and_preview (fs : FS) (file : UploadedFile)
    (csvRead : String → Except String (List Row))
    (excelRead : String → Except String Workbook) (now : String)
    (d : FileData) (info : ProcessingInfo) :
    fileTypeTag file.originalname = specFileTag file.originalname
    ∧ (∀ i, (handleUpload fs (some file) csvRead excelRead now).2.processingInfo = some i →
        i.fileType = specFileTag file.originalname)
    ∧ (renderDataPreviewKind (some d) info = PreviewKind.delimited
        ↔ info.fileType = "CSV") := by
  refine ⟨fileTypeTag_eq_specFileTag _, ?_, ?_⟩
  · intro i hi
    cases hp : processRequest file csvRead excelRead now with
    | ok v =>
      obtain ⟨dd, ii⟩ := v
      simp only [handleUpload, hp] at hi
      rw [← Option.some.inj hi]
      rw [← fileTypeTag_eq_specFileTag]
      exact processRequest_fileType file csvRead excelRead now (dd, ii) hp
    | error m =>
      simp only [handleUpload, hp] at hi
      exact Option.noConfusion hi
  · show (if info.fileType = "CSV" then PreviewKind.delimited else PreviewKind.workbook)
        = PreviewKind.delimited ↔ info.fileType = "CSV"
    split
    · next hcsv => simp [hcsv]
    · next hncsv => simp [hncsv]

/-- C10 witness: an .xlsx upload is tagged "XLSX", and a summary tagged
"CSV" selects the delimited preview. -/
theorem filetype_tag_and_preview_witness :
    (handleUpload [] (some ⟨"d.xlsx", "text/csv", 3, "p"⟩) (fun _ => Except.error "e")
        (fun _ => Except.ok [("S", [])]) "t").2.processingInfo.map (fun i => i.fileType)
      = some "XLSX"
    ∧ renderDataPreviewKind (some (FileData.csv []))
        ⟨"d.csv", "0.00 KB", "CSV", "t", some 0, some [], none, none, none⟩
      = PreviewKind.delimited := by
  constructor
  · cases hpi : (handleUpload [] (some ⟨"d.xlsx", "text/csv", 3, "p"⟩)
        (fun _ => Except.error "e") (fun _ => Except.ok [("S", [])]) "t").2.processingInfo with
    | none => exact absurd hpi (by decide)
    | some i =>
      have h := (filetype_tag_and_preview [] ⟨"d.xlsx", "text/csv", 3, "p"⟩
          (fun _ => Except.error "e") (fun _ => Except.ok [("S", [])]) "t"
          (FileData.csv []) ⟨"", "", "", "", none, none, none, none, none⟩).2.1 i hpi
      rw [show (some i).map (fun j => j.fileType) = some i.fileType from rfl, h]
      decide
  · exact (filetype_tag_and_preview [] ⟨"d.xlsx", "text/csv", 3, "p"⟩
      (fun _ => Except.error "e") (fun _ => Except.ok [("S", [])]) "t"
      (FileData.csv [])
      ⟨"d.csv", "0.00 KB", "CSV", "t", some 0, some [], none, none, none⟩).2.2.mpr rfl


end ExcelReader
